import Mathlib

/-!
# Verification of the harvest client library's core mechanisms

Shallow embedding of the Go package `harvest` (rubenv/harvest): the paginated
fetch loop (`fetchIter` / `fetchAll`), the single-page fetch helpers
(`FetchInvoices`, `FetchCustomers`, `FetchExpenses`), the memoized
`GetCompanyInfo`, the per-request rate-limiter discipline, and the
multipart encoder stage of `CreateExpense`.

The network is abstracted as a pure function from a request URL to a
fetch outcome (a transport error, or an HTTP status plus a decoded body);
JSON decoding of the response envelope is abstracted to the shape the Go
code inspects: whether the body decodes as a map, the raw `links` entry
(decoded to its `next` string, which is `""` when the `next` key is
absent), and the raw entry named by the element field (decoded to a list).
`json.Unmarshal` of a missing map entry (a nil `RawMessage`) fails, which
is modelled by the `missing` constructor producing a decode error.
-/

namespace Harvest

/-- Error taxonomy of a page fetch: a transport-level failure of
`hv.client.Do`, a non-success HTTP status, or a JSON decode failure. -/
inductive Err where
  | transport : Err
  | remote (status : Nat) : Err
  | decode : Err
deriving DecidableEq, Repr

/-- A raw entry of the decoded envelope map `r : map[string]json.RawMessage`:
the key may be missing (unmarshalling nil fails), present but not
unmarshallable at the expected type, or successfully decoded. -/
inductive RawField (α : Type) where
  | missing : RawField α
  | malformed : RawField α
  | ok (val : α) : RawField α
deriving DecidableEq, Repr

/-- The response body as inspected by `fetchAll`: whether it decodes as a
JSON object, the `links` entry (its `next` string; `""` when the `next`
key is absent inside a present `links` object), and the entry named by
the caller's element field, decoded as a list. -/
structure Body (α : Type) where
  decodable : Bool
  links : RawField String
  elems : RawField (List α)
deriving DecidableEq, Repr

/-- Outcome of one HTTP GET: either `hv.client.Do` fails, or a response
with a status code and a body arrives. -/
inductive FetchOutcome (α : Type) where
  | transportErr : FetchOutcome α
  | response (status : Nat) (body : Body α) : FetchOutcome α
deriving DecidableEq, Repr

/-- Embedding of `fetchAll[T](hv, url, field)` (part_001:262-309): issue one
GET at `url`; on transport error fail; on status `!= http.StatusOK` fail
with the status; then decode the envelope map, the `links` entry and the
element field, failing with a decode error when any step fails; on success
return the element list and `links.Next`.  (On every Go error path the
function returns `nil, "", err`, i.e. no partial result.) -/
def fetchAll {α : Type} (server : String → FetchOutcome α) (url : String) :
    Except Err (List α × String) :=
  match server url with
  | .transportErr => .error .transport
  | .response status body =>
    if status ≠ 200 then .error (.remote status)
    else if body.decodable = false then .error .decode
    else
      match body.links with
      | .missing => .error .decode
      | .malformed => .error .decode
      | .ok next =>
        match body.elems with
        | .missing => .error .decode
        | .malformed => .error .decode
        | .ok items => .ok (items, next)

/-- The suspended state of the `fetchIter` loop (part_001:227-260): the
buffered, not-yet-yielded elements `buf` and the current page URL
(`""` once no next page remains). -/
structure IterState (α : Type) where
  buf : List α
  url : String
deriving DecidableEq, Repr

instance {ε α : Type} [DecidableEq ε] [DecidableEq α] : DecidableEq (Except ε α) :=
  fun x y =>
    match x, y with
    | .error a, .error b =>
      match decEq a b with
      | isTrue h => isTrue (by rw [h])
      | isFalse h => isFalse (by intro hh; cases hh; exact h rfl)
    | .ok a, .ok b =>
      match decEq a b with
      | isTrue h => isTrue (by rw [h])
      | isFalse h => isFalse (by intro hh; cases hh; exact h rfl)
    | .error _, .ok _ => isFalse (by intro h; cases h)
    | .ok _, .error _ => isFalse (by intro h; cases h)

/-- What one pull of the `iter.Seq2` produced by `fetchIter` does: yield
one `(value, error)` pair and suspend in a new state, or end the
sequence. -/
inductive PullResult (α : Type) where
  | yield (val : Except Err α) (s : IterState α) : PullResult α
  | done : PullResult α
deriving DecidableEq, Repr

/-- One iteration of the `for` loop inside `fetchIter` (part_001:235-259),
i.e. one pull of the sequence, together with the list of URLs fetched
during it (at most one).  Mirrors the Go control flow exactly:
if the buffer is non-empty, pop and yield its head (no fetch); else if
the URL is `""`, end; else fetch once: on error yield `(nil, err)` and
set `buf = nil, url = ""` (the values `fetchAll` returned); on an empty
page end the sequence (the Go `if len(buf) == 0 { return }` runs after
at most one fetch); otherwise yield the first element and buffer the
rest with the returned next URL. -/
def fetchIterNext {α : Type} (server : String → FetchOutcome α) (s : IterState α) :
    PullResult α × List String :=
  match s.buf with
  | a :: rest => (.yield (.ok a) ⟨rest, s.url⟩, [])
  | [] =>
    if s.url = "" then (.done, [])
    else
      match fetchAll server s.url with
      | .error e => (.yield (.error e) ⟨[], ""⟩, [s.url])
      | .ok ([], _) => (.done, [s.url])
      | .ok (a :: rest, next) => (.yield (.ok a) ⟨rest, next⟩, [s.url])

/-- Pull the `fetchIter` sequence to exhaustion (fuel-bounded): the list of
yielded `(value, error)` pairs, the URLs fetched (in order), and whether
the sequence actually ended (`true`) or the fuel ran out (`false`). -/
def fetchIterRun {α : Type} (server : String → FetchOutcome α) :
    Nat → IterState α → List (Except Err α) × List String × Bool
  | 0, _ => ([], [], false)
  | fuel + 1, s =>
    match fetchIterNext server s with
    | (.done, us) => ([], us, true)
    | (.yield v s2, us) =>
      let r := fetchIterRun server fuel s2
      (v :: r.1, us ++ r.2.1, r.2.2)

/-- Pull the `fetchIter` sequence at most `m` times (a consumer that stops
after `m` elements): the yielded pairs and the URLs fetched. -/
def fetchIterRunN {α : Type} (server : String → FetchOutcome α) :
    Nat → IterState α → List (Except Err α) × List String
  | 0, _ => ([], [])
  | m + 1, s =>
    match fetchIterNext server s with
    | (.done, us) => ([], us)
    | (.yield v s2, us) =>
      let r := fetchIterRunN server m s2
      (v :: r.1, us ++ r.2)

/-! ## A linked chain of pages

A family of servers serving a finite chain of pages: page `k` lives at
`pageURL k` and carries a next-link to page `k+1` exactly when `k` is not
the last page.  URLs are distinguished by their length, so lookups need
no string parsing. -/

/-- URL of page `k` of a chain (a string of `k+1` copies of `p`, so that
distinct pages have distinct, non-empty URLs distinguished by length). -/
def pageURL (k : Nat) : String := String.mk (List.replicate (k + 1) 'p')

/-- The URL stored in the cursor when the next page would be page `k`:
`pageURL k` while pages remain, `""` once the chain is exhausted. -/
def chainURL {α : Type} (pages : List (List α)) (k : Nat) : String :=
  if k < pages.length then pageURL k else ""

/-- A server serving the chain `pages`: at the URL of page `k` it answers
with status 200, the elements of page `k`, and a `links.next` pointing at
page `k+1` exactly when one exists. -/
def chainServer {α : Type} (pages : List (List α)) (u : String) : FetchOutcome α :=
  match pages[u.length - 1]? with
  | none => .transportErr
  | some items => .response 200 ⟨true, .ok (chainURL pages u.length), .ok items⟩

theorem pageURL_length (k : Nat) : (pageURL k).length = k + 1 := by
  simp [pageURL, String.length]

theorem pageURL_ne_empty (k : Nat) : pageURL k ≠ "" := by
  intro h
  have h2 := congrArg String.length h
  rw [pageURL_length] at h2
  simp at h2

/-- `fetchAll` against a chain server at page `k` returns page `k`'s
elements and the next-link of the chain. -/
theorem fetchAll_chain {α : Type} (pages : List (List α)) (k : Nat) (items : List α)
    (h : pages[k]? = some items) :
    fetchAll (chainServer pages) (pageURL k) = .ok (items, chainURL pages (k + 1)) := by
  simp [fetchAll, chainServer, pageURL_length, h]

/-- Exactly enough fuel for `fetchIterRun` to exhaust a chain: one step per
yielded element plus one per page fetch, plus the final terminating step.
An empty page costs a single step, because the loop ends there. -/
def chainFuel {α : Type} : List (List α) → Nat
  | [] => 1
  | [] :: _ => 1
  | (_ :: as) :: rest => 1 + as.length + chainFuel rest

theorem fetchIterNext_cons {α : Type} (server : String → FetchOutcome α)
    (a : α) (rest : List α) (url : String) :
    fetchIterNext server ⟨a :: rest, url⟩ = (.yield (.ok a) ⟨rest, url⟩, []) := rfl

theorem fetchIterRun_succ {α : Type} (server : String → FetchOutcome α)
    (fuel : Nat) (s : IterState α) :
    fetchIterRun server (fuel + 1) s =
      match fetchIterNext server s with
      | (.done, us) => ([], us, true)
      | (.yield v s2, us) =>
        let r := fetchIterRun server fuel s2
        (v :: r.1, us ++ r.2.1, r.2.2) := rfl

/-- Draining the buffer: while elements are buffered, each pull yields one of
them in order and performs no fetch. -/
theorem fetchIterRun_buffer {α : Type} (server : String → FetchOutcome α)
    (buf : List α) (url : String) (f : Nat) :
    fetchIterRun server (buf.length + f) ⟨buf, url⟩
      = (buf.map Except.ok ++ (fetchIterRun server f ⟨[], url⟩).1,
         (fetchIterRun server f ⟨[], url⟩).2.1,
         (fetchIterRun server f ⟨[], url⟩).2.2) := by
  induction buf with
  | nil => simp
  | cons a rest ih =>
    have hfuel : (a :: rest).length + f = (rest.length + f) + 1 := by
      simp [List.length_cons]; omega
    rw [hfuel, fetchIterRun_succ, fetchIterNext_cons]
    simp [ih]

/-- Running the iterator loop against a chain server from the cursor that
points at page `k`: it yields exactly the elements of the remaining pages in
order, fetches exactly the remaining pages in order, and terminates —
provided every page of the chain except the last is non-empty. -/
theorem fetchIterRun_chain {α : Type} (pages : List (List α))
    (hne : ∀ p ∈ pages.dropLast, p ≠ []) :
    ∀ (suffix : List (List α)) (k : Nat), pages.drop k = suffix →
    fetchIterRun (chainServer pages) (chainFuel suffix) ⟨[], chainURL pages k⟩
      = (suffix.flatten.map Except.ok, (List.range' k suffix.length).map pageURL, true) := by
  intro suffix
  induction suffix with
  | nil =>
    intro k hdrop
    have hk : pages.length ≤ k := List.drop_eq_nil_iff.mp hdrop
    have hurl : chainURL pages k = "" := by
      simp [chainURL]; omega
    rw [hurl]
    simp [chainFuel, fetchIterRun, fetchIterNext, List.range']
  | cons items rest ih =>
    intro k hdrop
    have hk : k < pages.length := by
      by_contra hk
      rw [List.drop_eq_nil_iff.mpr (by omega)] at hdrop
      exact List.noConfusion hdrop
    have hget : pages[k]? = some items := by
      have h0 : (pages.drop k)[0]? = pages[k + 0]? := List.getElem?_drop pages k 0
      rw [hdrop] at h0
      simpa using h0.symm
    have hurl : chainURL pages k = pageURL k := by simp [chainURL, hk]
    have hfetch := fetchAll_chain pages k items hget
    have hdrop2 : pages.drop (k + 1) = rest := by
      have := List.drop_drop (l := pages) (n := 1) (m := k)
      rw [hdrop] at this
      simpa using this.symm
    match items, hne with
    | [], hne =>
      match rest, hdrop2 with
      | [], hdrop2 =>
        rw [hurl, chainFuel, fetchIterRun_succ]
        simp only [fetchIterNext, if_neg (pageURL_ne_empty k), hfetch]
        simp [List.range'_succ, List.range']
      | r :: rs, hdrop2 =>
        exfalso
        have hlen : k + 1 < pages.length := by
          have := congrArg List.length hdrop
          simp [List.length_drop] at this
          omega
        have htake : (pages.take (pages.length - 1))[k]? = some [] := by
          rw [List.getElem?_take]
          simp only [if_pos (show k < pages.length - 1 by omega)]
          exact hget
        have hmem : ([] : List α) ∈ pages.dropLast := by
          rw [List.dropLast_eq_take pages]
          exact List.getElem?_mem htake
        exact hne [] hmem rfl
    | a :: as, hne =>
      have hfuel : chainFuel ((a :: as) :: rest) = (as.length + chainFuel rest) + 1 := by
        simp [chainFuel]; omega
      rw [hurl, hfuel, fetchIterRun_succ]
      simp only [fetchIterNext, if_neg (pageURL_ne_empty k), hfetch]
      have hbuf := fetchIterRun_buffer (chainServer pages) as (chainURL pages (k + 1))
        (chainFuel rest)
      have hrest := ih (k + 1) hdrop2
      simp [hbuf, hrest, List.range'_succ]

/-- Ceiling division, `⌈a / b⌉` on naturals. -/
def ceilDiv (a b : Nat) : Nat := (a + b - 1) / b

theorem ceilDiv_step (n P : Nat) (hP : 0 < P) (hn : 1 ≤ n) :
    ceilDiv (n - P) P + 1 ≤ ceilDiv n P := by
  unfold ceilDiv
  rcases le_or_lt n P with h | h
  · have h0 : n - P = 0 := by omega
    rw [h0]
    have h1 : (0 + P - 1) / P = 0 := Nat.div_eq_of_lt (by omega)
    rw [h1]
    have h2 : 1 ≤ (n + P - 1) / P := (Nat.one_le_div_iff hP).mpr (by omega)
    omega
  · have h1 : n - P + P - 1 = n - 1 := by omega
    have h2 : n + P - 1 = (n - 1) + P := by omega
    rw [h1, h2, Nat.add_div_right _ hP]

/-- Fetch counting when the consumer pulls at most `m` times against a
uniform chain (every page has exactly `P > 0` elements), from a cursor at
page `k` with `buf` still buffered: at most `⌈(m - |buf|) / P⌉` pages are
fetched. -/
theorem fetchIterRunN_uniform {α : Type} (pages : List (List α)) (P : Nat)
    (hP : 0 < P) (hu : ∀ p ∈ pages, p.length = P) :
    ∀ (m k : Nat) (buf : List α),
      ((fetchIterRunN (chainServer pages) m ⟨buf, chainURL pages k⟩).2).length
        ≤ ceilDiv (m - buf.length) P := by
  intro m
  induction m with
  | zero =>
    intro k buf
    simp [fetchIterRunN]
  | succ m ih =>
    intro k buf
    match buf with
    | a :: rest =>
      have step : fetchIterRunN (chainServer pages) (m + 1) ⟨a :: rest, chainURL pages k⟩
          = ((Except.ok a) :: (fetchIterRunN (chainServer pages) m ⟨rest, chainURL pages k⟩).1,
             (fetchIterRunN (chainServer pages) m ⟨rest, chainURL pages k⟩).2) := by
        simp [fetchIterRunN, fetchIterNext]
      rw [step]
      have := ih k rest
      simpa [Nat.succ_sub_succ] using this
    | [] =>
      by_cases hk : k < pages.length
      · have hurl : chainURL pages k = pageURL k := by simp [chainURL, hk]
        have hget : pages[k]? = some pages[k] := List.getElem?_eq_getElem hk
        have hlen : pages[k].length = P := hu _ (pages.getElem_mem hk)
        have hfetch := fetchAll_chain pages k pages[k] hget
        match hpk : pages[k], hlen with
        | [], hlen => simp at hlen; omega
        | b :: bs, hlen =>
          rw [hpk] at hfetch
          have step : fetchIterRunN (chainServer pages) (m + 1) ⟨[], chainURL pages k⟩
              = ((Except.ok b) ::
                  (fetchIterRunN (chainServer pages) m ⟨bs, chainURL pages (k + 1)⟩).1,
                 pageURL k ::
                  (fetchIterRunN (chainServer pages) m ⟨bs, chainURL pages (k + 1)⟩).2) := by
            rw [hurl]
            simp [fetchIterRunN, fetchIterNext, if_neg (pageURL_ne_empty k), hfetch]
          rw [step]
          have hbs : bs.length = P - 1 := by
            simp at hlen
            omega
          have := ih (k + 1) bs
          rw [hbs] at this
          have hsub : m - (P - 1) = m + 1 - P := by omega
          rw [hsub] at this
          have hstep := ceilDiv_step (m + 1) P hP (by omega)
          simp only [List.length_cons, List.length_nil, Nat.sub_zero]
          omega
      · have hurl : chainURL pages k = "" := by simp [chainURL]; omega
        rw [hurl]
        simp [fetchIterRunN, fetchIterNext]

/-! ## Single-page fetch helpers

`FetchCustomers` / `FetchInvoices` / `FetchExpenses`
(part_001:311-327, 576-583) each build the listing URL, call `fetchAll`
once, and bind its next-link to `_`. -/

/-- The Go server URL constant. -/
def serverUrl : String := "https://api.harvestapp.com/v2"

/-- The URL built by the single-page helpers and by `fetchIter`:
`fmt.Sprintf("%s/%s?%s", serverUrl, path, v.Encode())` with `query` the
already-encoded option values. -/
def listURL (path query : String) : String :=
  serverUrl ++ "/" ++ path ++ "?" ++ query

/-- One `fetchAll` call whose next-link is discarded
(`result, _, err := fetchAll(...)`), paired with the URLs fetched
(always exactly the one given). -/
def fetchFirstPage {α : Type} (server : String → FetchOutcome α) (url : String) :
    Except Err (List α) × List String :=
  match fetchAll server url with
  | .error e => (.error e, [url])
  | .ok (items, _) => (.ok items, [url])

/-- Embedding of `Client.FetchCustomers` (part_001:311-318). -/
def FetchCustomers {α : Type} (server : String → FetchOutcome α) (query : String) :
    Except Err (List α) × List String :=
  fetchFirstPage server (listURL "customers" query)

/-- Embedding of `Client.FetchInvoices` (part_001:320-327). -/
def FetchInvoices {α : Type} (server : String → FetchOutcome α) (query : String) :
    Except Err (List α) × List String :=
  fetchFirstPage server (listURL "invoices" query)

/-- Embedding of `Client.FetchExpenses` (part_001:576-583). -/
def FetchExpenses {α : Type} (server : String → FetchOutcome α) (query : String) :
    Except Err (List α) × List String :=
  fetchFirstPage server (listURL "expenses" query)

/-! ## The company-info cache and the rate-limiter discipline -/

/-- The `Company` record (part_001:34-51). Its field values are never
interpreted; only the identity of the cached record matters. -/
structure Company where
  BaseURI : String
  FullDomain : String
  Name : String
  IsActive : Bool
  WeekStartDay : String
  WantsTimestampTimers : Bool
  TimeFormat : String
  PlanType : String
  ExpenseFeature : Bool
  InvoiceFeature : Bool
  EstimateFeature : Bool
  ApprovalFeature : Bool
  Clock : String
  DecimalSymbol : String
  ThousandsSeparator : String
  ColorScheme : String
deriving DecidableEq, Repr

/-- Observable resource events of one operation: taking one token from a
token bucket (identified by number, `hv.bucket.Wait(1)`), and issuing one
HTTP request (`hv.client.Do`). -/
inductive Ev where
  | acquire (bucket : Nat) : Ev
  | request : Ev
deriving DecidableEq, Repr

/-- Outcome of the single GET of `GetCompanyInfo`: transport failure, or a
status plus a body that either decodes into a `Company` or does not. -/
inductive CompanyNet where
  | transportErr : CompanyNet
  | response (status : Nat) (body : Option Company) : CompanyNet
deriving DecidableEq, Repr

/-- The mutable client state `GetCompanyInfo` touches: the identity of the
client's single token bucket (created once in `New`) and the
`hv.company` cache pointer. -/
structure ClientState where
  bucket : Nat
  company : Option Company
deriving DecidableEq, Repr

/-- Embedding of `Client.GetCompanyInfo` (part_001:183-213): if
`hv.company != nil` return it at once (no token, no request); otherwise
take one token, issue the GET, and on a 200 response with a decodable
body cache and return the company; every failure path leaves the cache
untouched.  Returns the result, the new client state, and the resource
events in order. -/
def GetCompanyInfo (net : CompanyNet) (hv : ClientState) :
    Except Err Company × ClientState × List Ev :=
  match hv.company with
  | some info => (.ok info, hv, [])
  | none =>
    match net with
    | .transportErr => (.error .transport, hv, [.acquire hv.bucket, .request])
    | .response status body =>
      if status ≠ 200 then (.error (.remote status), hv, [.acquire hv.bucket, .request])
      else
        match body with
        | none => (.error .decode, hv, [.acquire hv.bucket, .request])
        | some info => (.ok info, ⟨hv.bucket, some info⟩, [.acquire hv.bucket, .request])

/-- The event pattern shared by every request site in the source:
`hv.bucket.Wait(1)` immediately followed by `hv.client.Do(req)`. -/
def requestEvents (bucket : Nat) : List Ev := [.acquire bucket, .request]

/-- Events of a `GetCompanyInfo` call: none on a cache hit, one
rate-limited request on a miss. -/
def companyInfoEvents (bucket : Nat) (cached : Bool) : List Ev :=
  if cached then [] else requestEvents bucket

/-- The resource-event traces of every operation of one client that can
issue an HTTP request, transcribed from the source in order:
`GetCompanyInfo` (part_001:195-196), one page fetch of a paginated
sequence, i.e. `fetchAll` (270-271), `GetRecipients` (337-338),
`Invoice.Send` (401-402), `Invoice.MarkSent` (435-436),
`Invoice.AddPayment` (473-474), `Invoice.Download` (487, 499-500),
`Invoice.GetAttachments` (512, 523-524), `Attachment.Download`
(552, 564-565), `CreateInvoice` (692-693), and the transmitter stage of
`CreateExpense` (659-660).  The three download-style operations first
call `GetCompanyInfo`, whose own request is rate-limited the same way. -/
def clientOpEvents (bucket : Nat) (cached : Bool) : List (List Ev) :=
  [ companyInfoEvents bucket cached,
    requestEvents bucket,
    requestEvents bucket,
    requestEvents bucket,
    requestEvents bucket,
    requestEvents bucket,
    companyInfoEvents bucket cached ++ requestEvents bucket,
    companyInfoEvents bucket cached ++ requestEvents bucket,
    companyInfoEvents bucket cached ++ requestEvents bucket,
    requestEvents bucket,
    requestEvents bucket ]

/-- A trace respects the rate limiter of bucket `bucket` when it is a
sequence of acquire/request pairs: every request is immediately preceded
by the acquisition of exactly one token from that bucket. -/
def rateLimited (bucket : Nat) : List Ev → Bool
  | [] => true
  | .acquire b :: .request :: rest => b == bucket && rateLimited bucket rest
  | _ => false

/-! ## The encoder stage of `CreateExpense`

The conduit (`io.Pipe`) carries the bytes the encoder goroutine writes;
`mime/multipart.Writer` is modelled chunk by chunk, following the Go
standard library's byte format (`CreatePart` sorts header keys; the
boundary produced by `multipart.NewWriter` contains no character that
would force quoting in `FormDataContentType`). -/

def crlf : String := "\r\n"

/-- `mime/multipart`'s `escapeQuotes`: backslash-escape `\` and `"`. -/
def escapeQuotes (s : String) : String :=
  String.join (s.toList.map fun c =>
    if c = '\\' then "\\\\" else if c = '"' then "\\\"" else String.mk [c])

/-- State of Go's `multipart.Writer` over the pipe: the per-call boundary,
the chunks written to the pipe so far (in order), and whether a part has
already been opened (`w.lastpart != nil`). -/
structure MultipartWriter where
  boundary : String
  out : List String
  lastpart : Bool

/-- `multipart.Writer.CreatePart`: write the dash-boundary line (preceded
by a CRLF when a previous part exists), the header lines in sorted key
order, and a blank line.  The expense encoder sets `Content-Disposition`
before `Content-Type`, which is also their sorted order. -/
def MultipartWriter.createPart (w : MultipartWriter)
    (headers : List (String × String)) : MultipartWriter :=
  { w with
    out := w.out ++
      [(if w.lastpart then crlf ++ "--" ++ w.boundary ++ crlf
        else "--" ++ w.boundary ++ crlf)
       ++ String.join (headers.map fun kv => kv.1 ++ ": " ++ kv.2 ++ crlf)
       ++ crlf],
    lastpart := true }

/-- `multipart.Writer.CreateFormField`. -/
def MultipartWriter.createFormField (w : MultipartWriter) (fieldname : String) :
    MultipartWriter :=
  w.createPart
    [("Content-Disposition", "form-data; name=\"" ++ escapeQuotes fieldname ++ "\"")]

/-- `io.WriteString(fw, ...)` / `io.Copy(fw, ...)`: bytes written through
the current part go straight to the conduit. -/
def MultipartWriter.writeString (w : MultipartWriter) (s : String) : MultipartWriter :=
  { w with out := w.out ++ [s] }

/-- `multipart.Writer.Close`: write the terminating boundary line. -/
def MultipartWriter.close (w : MultipartWriter) : MultipartWriter :=
  { w with out := w.out ++ [crlf ++ "--" ++ w.boundary ++ "--" ++ crlf] }

/-- `multipart.Writer.FormDataContentType`. -/
def MultipartWriter.formDataContentType (w : MultipartWriter) : String :=
  "multipart/form-data; boundary=" ++ w.boundary

/-- The `CreateExpense` job descriptor (part_001:585-595); `File` is the
full contents of the byte source (`none` when no receipt is attached). -/
structure CreateExpense where
  ProjectID : Int
  ExpenseCategoryID : Int
  SpentDate : String
  TotalCost : Float
  Notes : String
  Filename : String
  ContentType : String
  File : Option String

/-- `fmt.Sprintf("%g", ...)`: the rendered total cost.  The rendering is
opaque to every claim, so Float's `toString` stands in for `%g`. -/
def formatG (x : Float) : String := toString x

/-- The scalar fields in declared insertion order (part_001:605-614);
the two IDs are rendered with `strconv.FormatInt(_, 10)`. -/
def expenseFields (e : CreateExpense) : List (String × String) :=
  [("spent_date", e.SpentDate),
   ("project_id", toString e.ProjectID),
   ("expense_category_id", toString e.ExpenseCategoryID),
   ("notes", e.Notes),
   ("total_cost", formatG e.TotalCost)]

/-- The encoder stage of `CreateExpense` (part_001:602-643): one form part
per scalar field in order, then — when a file is present — one part with
an explicit `Content-Disposition` (name `receipt`, the declared filename)
and `Content-Type`, whose content is the byte source, then `mp.Close()`. -/
def encodeExpense (e : CreateExpense) (w : MultipartWriter) : MultipartWriter :=
  let w := (expenseFields e).foldl
    (fun w f => (w.createFormField f.1).writeString f.2) w
  let w :=
    match e.File with
    | none => w
    | some content =>
      (w.createPart
        [("Content-Disposition",
          "form-data; name=\"receipt\"; filename=\"" ++ e.Filename ++ "\""),
         ("Content-Type", e.ContentType)]).writeString content
  w.close

/-- What the encoder goroutine does to the conduit: each chunk written,
then the deferred `pw.Close()` once the encoder function returns. -/
inductive PipeEvent where
  | write (bytes : String) : PipeEvent
  | closeWrite : PipeEvent
deriving DecidableEq, Repr

/-- The conduit events of one `CreateExpense` call with boundary `b`. -/
def CreateExpensePipeEvents (b : String) (e : CreateExpense) : List PipeEvent :=
  ((encodeExpense e ⟨b, [], false⟩).out).map .write ++ [.closeWrite]

/-- The bytes a trace of conduit events writes, in order. -/
def writtenBytes (evs : List PipeEvent) : String :=
  String.join (evs.filterMap fun ev =>
    match ev with
    | .write s => some s
    | .closeWrite => none)

/-- The `Content-Type` header the transmitter stage sets on the POST
(`mp.FormDataContentType()`, part_001:655, on the same writer). -/
def createExpenseContentType (b : String) (e : CreateExpense) : String :=
  MultipartWriter.formDataContentType (encodeExpense e ⟨b, [], false⟩)

/-- Modelled from the spec (§6 multipart wire shape; refinement target):
one multipart part under boundary `b` — dash-boundary line, header lines,
blank line, content, CRLF. -/
def specPart (b : String) (headers : List (String × String)) (content : String) :
    String :=
  "--" ++ b ++ crlf
  ++ String.join (headers.map fun kv => kv.1 ++ ": " ++ kv.2 ++ crlf)
  ++ crlf ++ content ++ crlf

/-- Modelled from the spec (§4.4 Encoder step, §6 multipart wire shape;
refinement target): the full multipart body — one part per scalar field in
declaration order, then, when a file is present, one `receipt` part with
the declared filename and content type whose content is exactly the byte
source, then the multipart terminator. -/
def specExpenseBody (b : String) (e : CreateExpense) : String :=
  String.join ((expenseFields e).map fun f =>
    specPart b
      [("Content-Disposition", "form-data; name=\"" ++ escapeQuotes f.1 ++ "\"")]
      f.2)
  ++ (match e.File with
      | none => ""
      | some content =>
        specPart b
          [("Content-Disposition",
            "form-data; name=\"receipt\"; filename=\"" ++ e.Filename ++ "\""),
           ("Content-Type", e.ContentType)] content)
  ++ "--" ++ b ++ "--" ++ crlf

theorem join_cons_str (a : String) (l : List String) :
    String.join (a :: l) = a ++ String.join l := by
  apply String.ext
  simp [String.join_eq]

theorem join_nil_str : String.join [] = "" := rfl

/-- A sample company record for concrete instantiations. -/
def sampleCompany : Company :=
  ⟨"", "", "", false, "", false, "", "", false, false, false, false, "", "", "", ""⟩

/-! ## Claims -/

/-- C1 (counterexample): at the chain `[[], [7]]`, page 0 is an empty page
carrying the non-empty next-link `pageURL 1`, yet the very first pull of
the `fetchIter` loop ends the sequence after fetching only page 0 — it
does not continue by fetching the linked page, refuting the claim that an
empty page with a present next-link keeps the sequence going. -/
theorem fetchIter_empty_linked_page_cex :
    chainServer [([] : List Nat), [7]] (pageURL 0)
      = .response 200 ⟨true, .ok (pageURL 1), .ok []⟩ ∧
    pageURL 1 ≠ "" ∧
    fetchIterNext (chainServer [([] : List Nat), [7]]) ⟨[], pageURL 0⟩
      = (.done, [pageURL 0]) :=
  ⟨by decide, by decide, by decide⟩

/-- C1 (amended): when the buffer is empty and a next-page URL is present,
the loop fetches that one page; if the fetched page contains zero
elements the sequence ends immediately — even when the page carries a
non-empty next-page link — and the sequence also ends when the buffer is
empty and no next-page URL remains. -/
theorem fetchIter_empty_page_terminates (server : String → FetchOutcome Nat)
    (url next : String) (h1 : url ≠ "")
    (h2 : fetchAll server url = .ok ([], next)) :
    fetchIterNext server ⟨[], url⟩ = (.done, [url]) ∧
    fetchIterNext server (⟨[], ""⟩ : IterState Nat) = (.done, []) := by
  constructor
  · simp [fetchIterNext, h1, h2]
  · simp [fetchIterNext]

/-- C1 (witness): the amended statement at the chain `[[], [7]]`, whose
page 0 is empty with the non-empty next-link `pageURL 1`. -/
theorem fetchIter_empty_page_terminates_witness :
    fetchIterNext (chainServer [([] : List Nat), [7]]) ⟨[], pageURL 0⟩
      = (.done, [pageURL 0]) ∧
    fetchIterNext (chainServer [([] : List Nat), [7]]) (⟨[], ""⟩ : IterState Nat)
      = (.done, []) :=
  fetchIter_empty_page_terminates (chainServer [[], [7]]) (pageURL 0) (pageURL 1)
    (by decide) (by decide)

/-- C2 (counterexample): at the chain `[[], [7]]` (page 1 holds 0 elements
and a next-link, page 2 holds 1 element and none), exhausting the
sequence yields 0 elements after exactly 1 fetch and terminates, not the
1 element (`7`) in 2 fetches the claim's count `K` predicts. -/
theorem fetchIter_chain_cex :
    fetchIterRun (chainServer [([] : List Nat), [7]]) 5 ⟨[], pageURL 0⟩
      = ([], [pageURL 0], true) ∧
    fetchIterRun (chainServer [([] : List Nat), [7]]) 5 ⟨[], pageURL 0⟩
      ≠ ([Except.ok 7], [pageURL 0, pageURL 1], true) :=
  ⟨by decide, by decide⟩

/-- C2 (amended): for every finite chain of pages in which every page
except the last is non-empty, pulling the `fetchIter` sequence to
exhaustion yields exactly the concatenation of the pages' elements in
server order and fetches exactly the pages of the chain, once each, in
link order (so the fetch count is the number of pages); in particular the
two-page example `[A,B]`, `[C]` yields `A, B, C` with exactly two
fetches. -/
theorem fetchIter_chain_exhaustive (pages : List (List Nat))
    (h0 : pages ≠ []) (h1 : ∀ p ∈ pages.dropLast, p ≠ []) :
    fetchIterRun (chainServer pages) (chainFuel pages) ⟨[], pageURL 0⟩
      = (pages.flatten.map Except.ok,
         (List.range' 0 pages.length).map pageURL, true) := by
  have h := fetchIterRun_chain pages h1 pages 0 (by simp)
  have hurl : chainURL pages 0 = pageURL 0 := by
    simp [chainURL, List.length_pos.mpr h0]
  rwa [hurl] at h

/-- C2 (witness): the spec's example scenario — page 1 `[A,B]` (as `1, 2`)
with a next-link, page 2 `[C]` (as `3`) without: pulling to exhaustion
yields `1, 2, 3` and fetches exactly the two pages. -/
theorem fetchIter_chain_exhaustive_witness :
    fetchIterRun (chainServer [[1, 2], [3]]) (chainFuel [[1, 2], [3]])
        ⟨[], pageURL 0⟩
      = ([Except.ok 1, Except.ok 2, Except.ok 3], [pageURL 0, pageURL 1], true) :=
  (fetchIter_chain_exhaustive [[1, 2], [3]] (by decide) (by decide)).trans (by decide)

/-- C3: a failed page fetch is delivered to the consumer as an
error-carrying element of the sequence — the pull yields `(nil, err)`
rather than silently ending — and the error is terminal: the state after
it has an empty buffer and no URL, so a consumer that keeps pulling gets
the end of the sequence without any further fetch. -/
theorem fetchIter_error_terminal (server : String → FetchOutcome Nat)
    (url : String) (e : Err) (h1 : url ≠ "")
    (h2 : fetchAll server url = .error e) :
    fetchIterNext server ⟨[], url⟩ = (.yield (.error e) ⟨[], ""⟩, [url]) ∧
    fetchIterNext server (⟨[], ""⟩ : IterState Nat) = (.done, []) := by
  constructor
  · simp [fetchIterNext, h1, h2]
  · simp [fetchIterNext]

/-- C3 (witness): against a server that always answers with status 500,
the first pull yields the error element and the next pull ends the
sequence with no fetch. -/
theorem fetchIter_error_terminal_witness :
    fetchIterNext
        (fun _ => FetchOutcome.response 500 ⟨true, .ok "", .ok ([] : List Nat)⟩)
        ⟨[], pageURL 0⟩
      = (.yield (.error (Err.remote 500)) ⟨[], ""⟩, [pageURL 0]) ∧
    fetchIterNext
        (fun _ => FetchOutcome.response 500 ⟨true, .ok "", .ok ([] : List Nat)⟩)
        (⟨[], ""⟩ : IterState Nat)
      = (.done, []) :=
  fetchIter_error_terminal _ (pageURL 0) (Err.remote 500) (by decide) (by decide)

/-- C6: laziness of the iterator — a consumer that never pulls causes no
fetch; a pull made while elements are still buffered fetches nothing;
and against a chain of uniform page size `P > 0`, a consumer that stops
after `m` pulls causes at most `⌈m / P⌉` page fetches. -/
theorem fetchIter_lazy :
    (∀ (server : String → FetchOutcome Nat) (s : IterState Nat),
        fetchIterRunN server 0 s = ([], [])) ∧
    (∀ (server : String → FetchOutcome Nat) (s : IterState Nat),
        s.buf ≠ [] → (fetchIterNext server s).2 = []) ∧
    (∀ (pages : List (List Nat)) (P m : Nat), 0 < P →
        (∀ p ∈ pages, p.length = P) →
        ((fetchIterRunN (chainServer pages) m ⟨[], chainURL pages 0⟩).2).length
          ≤ ceilDiv m P) := by
  refine ⟨fun _ _ => rfl, ?_, ?_⟩
  · intro server s hbuf
    match s, hbuf with
    | ⟨a :: rest, url⟩, _ => rfl
  · intro pages P m hP hu
    have h := fetchIterRunN_uniform pages P hP hu m 0 []
    simpa using h

/-- C6 (witness): a still-buffered pull fetches nothing, and stopping
after 3 of the 4 elements of a two-page chain of page size 2 causes at
most `⌈3/2⌉ = 2` fetches. -/
theorem fetchIter_lazy_witness :
    (fetchIterNext (chainServer [[1, 2], [3, 4]]) ⟨[5], pageURL 0⟩).2 = [] ∧
    ((fetchIterRunN (chainServer [[1, 2], [3, 4]]) 3
        ⟨[], chainURL [[1, 2], [3, 4]] 0⟩).2).length ≤ ceilDiv 3 2 :=
  ⟨fetchIter_lazy.2.1 (chainServer [[1, 2], [3, 4]]) ⟨[5], pageURL 0⟩ (by decide),
   fetchIter_lazy.2.2 [[1, 2], [3, 4]] 2 3 (by decide) (by decide)⟩

/-- C7: `fetchAll` on a non-success status fails with an error carrying
that status (and, being an `Except`, no partial result); an undecodable
body, and a missing or malformed element field, fail with a decode error;
on success the next-link is exactly the decoded `links.next`, and an
empty next URL makes the iterator end without fetching. -/
theorem fetchAll_envelope_spec (server : String → FetchOutcome Nat)
    (url : String) (st : Nat) (body : Body Nat)
    (h : server url = .response st body) :
    (st ≠ 200 → fetchAll server url = .error (.remote st)) ∧
    (st = 200 → body.decodable = false → fetchAll server url = .error .decode) ∧
    (st = 200 → body.decodable = true →
      body.elems = .missing ∨ body.elems = .malformed →
      fetchAll server url = .error .decode) ∧
    (∀ (items : List Nat) (next : String), st = 200 → body.decodable = true →
      body.links = .ok next → body.elems = .ok items →
      fetchAll server url = .ok (items, next)) ∧
    (∀ s : IterState Nat, s.buf = [] → s.url = "" →
      fetchIterNext server s = (.done, [])) := by
  refine ⟨?_, ?_, ?_, ?_, ?_⟩
  · intro hst
    simp [fetchAll, h, hst]
  · intro hst hdec
    simp [fetchAll, h, hst, hdec]
  · intro hst hdec helems
    rcases helems with he | he <;>
      (cases hl : body.links <;> simp [fetchAll, h, hst, hdec, hl, he])
  · intro items next hst hdec hl he
    simp [fetchAll, h, hst, hdec, hl, he]
  · rintro ⟨buf, u⟩ hb hu
    simp only at hb hu
    subst hb
    subst hu
    simp [fetchIterNext]

/-- C7 (witness): a server answering status 500 makes `fetchAll` fail with
exactly that status. -/
theorem fetchAll_envelope_spec_witness :
    fetchAll (fun _ => FetchOutcome.response 500 ⟨true, .ok "", .ok ([] : List Nat)⟩)
        serverUrl
      = .error (.remote 500) :=
  (fetchAll_envelope_spec _ serverUrl 500 ⟨true, .ok "", .ok []⟩ rfl).1 (by decide)

/-- C8: every HTTP request any operation of one client can issue —
`GetCompanyInfo` on a cache miss, a page fetch, `GetRecipients`,
`Invoice.Send` / `MarkSent` / `AddPayment` / `Download` /
`GetAttachments`, `Attachment.Download`, `CreateInvoice`, and the
transmitter stage of `CreateExpense` — is immediately preceded by the
acquisition of exactly one token from that client's single shared
bucket. -/
theorem client_requests_rate_limited (bucket : Nat) (cached : Bool) :
    (clientOpEvents bucket cached).all (rateLimited bucket) = true := by
  cases cached <;>
    simp [clientOpEvents, companyInfoEvents, requestEvents, rateLimited]

/-- C9: `FetchInvoices`, `FetchCustomers` and `FetchExpenses` each perform
exactly one page fetch (the one listing URL) and discard the returned
next-page link, returning only the first page whatever that link was;
the iterator form, by contrast, retains the returned next-link in its
cursor so the chain can be followed. -/
theorem fetchFunctions_first_page_only (server : String → FetchOutcome Nat)
    (query : String) (invs custs exps : List Nat) (nI nC nE : String)
    (hI : fetchAll server (listURL "invoices" query) = .ok (invs, nI))
    (hC : fetchAll server (listURL "customers" query) = .ok (custs, nC))
    (hE : fetchAll server (listURL "expenses" query) = .ok (exps, nE)) :
    FetchInvoices server query = (.ok invs, [listURL "invoices" query]) ∧
    FetchCustomers server query = (.ok custs, [listURL "customers" query]) ∧
    FetchExpenses server query = (.ok exps, [listURL "expenses" query]) ∧
    (∀ (a : Nat) (rest : List Nat) (url nx : String), url ≠ "" →
      fetchAll server url = .ok (a :: rest, nx) →
      fetchIterNext server ⟨[], url⟩ = (.yield (.ok a) ⟨rest, nx⟩, [url])) := by
  refine ⟨?_, ?_, ?_, ?_⟩
  · simp [FetchInvoices, fetchFirstPage, hI]
  · simp [FetchCustomers, fetchFirstPage, hC]
  · simp [FetchExpenses, fetchFirstPage, hE]
  · intro a rest url nx hu hfa
    simp [fetchIterNext, hu, hfa]

/-- C9 (witness): against a server that always reports one element and a
non-empty next-link `"more"`, `FetchInvoices` returns just that first
page after one fetch, ignoring the link. -/
theorem fetchFunctions_first_page_only_witness :
    FetchInvoices
        (fun _ => FetchOutcome.response 200 ⟨true, .ok "more", .ok [1]⟩) ""
      = (.ok [1], [listURL "invoices" ""]) :=
  (fetchFunctions_first_page_only _ "" [1] [1] [1] "more" "more" "more"
    (by decide) (by decide) (by decide)).1

/-- C10: `GetCompanyInfo` is memoized per client — with a cached company
it returns the identical record with no request and no token; on a miss,
a 200 response with a decodable body is cached, and the next call
returns it with no events; any failing call leaves the cache untouched,
so a subsequent call (still uncached) issues the rate-limited request
again. -/
theorem GetCompanyInfo_memoized (net net2 : CompanyNet) (hv : ClientState) :
    (∀ info, hv.company = some info → GetCompanyInfo net hv = (.ok info, hv, [])) ∧
    (∀ info, hv.company = none → net = .response 200 (some info) →
        GetCompanyInfo net hv
          = (.ok info, ⟨hv.bucket, some info⟩, [.acquire hv.bucket, .request]) ∧
        GetCompanyInfo net2 ⟨hv.bucket, some info⟩
          = (.ok info, ⟨hv.bucket, some info⟩, [])) ∧
    (∀ e, hv.company = none → (GetCompanyInfo net hv).1 = .error e →
        (GetCompanyInfo net hv).2.1 = hv) ∧
    (hv.company = none →
        (GetCompanyInfo net2 hv).2.2 = [.acquire hv.bucket, .request]) := by
  obtain ⟨bk, co⟩ := hv
  refine ⟨?_, ?_, ?_, ?_⟩
  · intro info hco
    simp only at hco
    subst hco
    rfl
  · rintro info hco rfl
    simp only at hco
    subst hco
    exact ⟨rfl, rfl⟩
  · intro e hco herr
    simp only at hco
    subst hco
    cases net with
    | transportErr => rfl
    | response st body =>
      by_cases hst : st = 200
      · subst hst
        cases body with
        | none => rfl
        | some info => simp [GetCompanyInfo] at herr
      · simp [GetCompanyInfo, hst]
  · intro hco
    simp only at hco
    subst hco
    cases net2 with
    | transportErr => rfl
    | response st body =>
      by_cases hst : st = 200
      · subst hst
        cases body <;> rfl
      · simp [GetCompanyInfo, hst]

/-- C10 (witness): a cached client returns the cached record with no
events, and after a 500 answer the cache is still empty. -/
theorem GetCompanyInfo_memoized_witness :
    GetCompanyInfo CompanyNet.transportErr ⟨0, some sampleCompany⟩
      = (.ok sampleCompany, ⟨0, some sampleCompany⟩, []) ∧
    (GetCompanyInfo (CompanyNet.response 500 none) ⟨0, none⟩).2.1 = ⟨0, none⟩ :=
  ⟨(GetCompanyInfo_memoized CompanyNet.transportErr CompanyNet.transportErr
      ⟨0, some sampleCompany⟩).1 sampleCompany rfl,
   (GetCompanyInfo_memoized (CompanyNet.response 500 none) CompanyNet.transportErr
      ⟨0, none⟩).2.2.1 (Err.remote 500) rfl (by decide)⟩

/-- C5: for every boundary and job, the encoder writes into the conduit
exactly the multipart/form-data body of the spec — one part per scalar
field in declared order (`spent_date`, `project_id`,
`expense_category_id`, `notes`, `total_cost`), then, when a file is
present, one `receipt` part with the declared filename and content type
whose content is exactly the byte source, then the terminator — followed
by exactly one close of the conduit's write end as the last event, and
the POST's `Content-Type` header carries the same boundary. -/
theorem CreateExpense_multipart_body (b : String) (e : CreateExpense) :
    writtenBytes (CreateExpensePipeEvents b e) = specExpenseBody b e ∧
    (CreateExpensePipeEvents b e).getLast? = some .closeWrite ∧
    (CreateExpensePipeEvents b e).count .closeWrite = 1 ∧
    createExpenseContentType b e = "multipart/form-data; boundary=" ++ b := by
  refine ⟨?_, ?_, ?_, ?_⟩
  · cases hF : e.File with
    | none =>
      simp [writtenBytes, CreateExpensePipeEvents, encodeExpense, expenseFields, hF,
        specExpenseBody, specPart, MultipartWriter.createFormField,
        MultipartWriter.createPart, MultipartWriter.writeString, MultipartWriter.close,
        join_cons_str, join_nil_str, String.append_assoc, String.empty_append,
        String.append_empty]
    | some content =>
      simp [writtenBytes, CreateExpensePipeEvents, encodeExpense, expenseFields, hF,
        specExpenseBody, specPart, MultipartWriter.createFormField,
        MultipartWriter.createPart, MultipartWriter.writeString, MultipartWriter.close,
        join_cons_str, join_nil_str, String.append_assoc, String.empty_append,
        String.append_empty]
  · simp [CreateExpensePipeEvents]
  · rw [CreateExpensePipeEvents, List.count_append]
    have h0 : ((encodeExpense e ⟨b, [], false⟩).out.map PipeEvent.write).count
        PipeEvent.closeWrite = 0 := by
      rw [List.count_eq_zero]
      simp
    rw [h0]
    simp
  · cases hF : e.File <;>
      simp [createExpenseContentType, encodeExpense, expenseFields, hF,
        MultipartWriter.createFormField, MultipartWriter.createPart,
        MultipartWriter.writeString, MultipartWriter.close,
        MultipartWriter.formDataContentType]

end Harvest
